import Mathlib

/-!
Shallow embedding of the osuVNFC Discord bot's verification / invitation /
registration / rename workflow (src/main.py), with theorems about the
behaviour of these operations over the relational store.

The database is modelled as lists of rows; `scalar_one_or_none` selects are
modelled with `List.find?` (under the uniqueness invariants at most one row
matches), inserts append a row, the duplicate-key `IntegrityError` branch is
taken exactly when a row with the colliding primary key already exists, and
SQL-level updates map over the row list.
-/

namespace OsuVNFC

/-- Row of the `discord_verify` table (class `DiscordVerify` in src/main.py):
one pending verification code per Discord id (`discord_id` is the primary
key).  The `time` column is never assigned by the bot's insert, so it is
omitted from the model. -/
structure DiscordVerify where
  discord_id : Nat
  verify_key : String
deriving DecidableEq, Repr

/-- Row of the `users_invitation` table (class `DiscordInvite` in src/main.py):
`user_id` is the owning account's id, `used_by` the redeemer account id
(NULL until redeemed), `invite_code` the 16-character code.  The issued-at
`time` column is not named in the bot's insert; it is filled by the store at
insert time (spec §3: issued-at timestamp), so the insert in `invite` below
records the current clock value `now` in it. -/
structure DiscordInvite where
  user_id : Nat
  time : Nat
  used_by : Option Nat
  invite_code : String
deriving DecidableEq, Repr

/-- Row of the `users` table (class `Users` in src/main.py), restricted to the
columns this workflow reads or writes. -/
structure Users where
  id : Nat
  name : String
  safe_name : String
  email : String
  priv : Nat
  pw_bcrypt : String
  available_invite : Int
  discord_id : Option Nat
deriving DecidableEq, Repr

/-- The relational store. -/
structure DB where
  users : List Users
  verifies : List DiscordVerify
  invites : List DiscordInvite
deriving DecidableEq, Repr

/-- A Discord role as the `invite` command sees it: its id and the result of
`role.is_premium_subscriber()`. -/
structure Role where
  id : Nat
  is_premium_subscriber : Bool
deriving DecidableEq, Repr

/-- Code generation
`hashlib.md5(str(asyncio.get_event_loop().time()).encode()).hexdigest()[:16]`:
the md5 hex digest of the clock reading is modelled as an input string (a
32-character hex digest), and the code is its first 16 characters. -/
def genCode (digest : String) : String :=
  ⟨digest.data.take 16⟩

/-- The role-scan loop at the top of the `invite` command: walk the requester's
roles and set `SPECIAL_PERM`, breaking at the first role whose id equals the
configured donor or moderator role id, or which has premium-subscriber
(server booster) status. -/
def specialPerm (donor moderator : Nat) : List Role → Bool
  | [] => false
  | r :: rs =>
    if r.id = donor ∨ r.id = moderator then true
    else if r.is_premium_subscriber then true
    else specialPerm donor moderator rs

/-- Outcome of the `verify` command, as the user-visible reply.  `crash`
models `scalar_one_or_none()` returning no row followed by the unguarded
`.verify_key` attribute access (an uncaught exception). -/
inductive VerifyOutcome where
  | alreadyVerified
  | issued (code : String)
  | codeAlreadyPending (code : String)
  | crash
deriving DecidableEq, Repr

/-- The `verify` command (src/main.py lines 210-243).  If an account row is
linked to the requester's Discord id, reply "already verified".  Otherwise
insert a fresh `DiscordVerify` row; a primary-key collision (a row for that
Discord id already exists) raises `IntegrityError`, the write is rolled back
and the "already have a verify code" reply is sent.  Either way, the code to
display is then re-selected from the table. -/
def verify (db : DB) (uid : Nat) (digest : String) : VerifyOutcome × DB :=
  match db.users.find? (fun u => u.discord_id == some uid) with
  | some _ => (.alreadyVerified, db)
  | none =>
    let dup := (db.verifies.find? (fun v => v.discord_id == uid)).isSome
    let db1 :=
      if dup then db
      else { db with verifies := db.verifies ++ [⟨uid, genCode digest⟩] }
    match db1.verifies.find? (fun v => v.discord_id == uid) with
    | some row =>
      (if dup then .codeAlreadyPending row.verify_key else .issued row.verify_key, db1)
    | none => (.crash, db1)

/-- Outcome of the `invite` command.  `issued code remaining` carries the code
sent to the requester together with the "You have n invites left." count, or
`none` for the unlimited-invites reply.  `crash` models `.scalars().first()`
returning no row followed by the unguarded `.invite_code` access. -/
inductive InviteOutcome where
  | notVerified
  | noInvitesLeft
  | issued (code : String) (remaining : Option Int)
  | crash
deriving DecidableEq, Repr

/-- Fold implementing `ORDER BY time DESC` + `first()` over an already
filtered row list: keep the row with the greatest `time` (the first such row
on ties, which the SQL leaves unspecified; the theorems below only use it
under a strictly-fresh timestamp hypothesis). -/
def latestInviteAux : Option DiscordInvite → List DiscordInvite → Option DiscordInvite
  | acc, [] => acc
  | none, r :: rs => latestInviteAux (some r) rs
  | some a, r :: rs => latestInviteAux (some (if a.time < r.time then r else a)) rs

/-- The select `DiscordInvite.user_id == id` ordered by `time` descending,
first row. -/
def latestInvite (invs : List DiscordInvite) (accId : Nat) : Option DiscordInvite :=
  latestInviteAux none (invs.filter (fun r => r.user_id == accId))

/-- The `invite` command (src/main.py lines 246-308).  Compute `SPECIAL_PERM`
from the requester's roles; fail `notVerified` when no account is linked to
the Discord id; fail `noInvitesLeft` when the counter is non-positive and the
requester lacks special permission; otherwise insert a new `DiscordInvite`
row for the account, re-select the account's newest invite row by time, and
— only without special permission — run the ORM-enabled UPDATE decrementing
`available_invite` by one.  The UPDATE's default session synchronization also
applies the new value to the in-session `db_user` object (commit does not
expire it, `expire_on_commit=False`), so by the time the "invites left"
message formats `db_user.available_invite - 1` the attribute already holds
old − 1 and the reported count is old − 2. -/
def invite (db : DB) (uid : Nat) (donor moderator : Nat) (roles : List Role)
    (digest : String) (now : Nat) : InviteOutcome × DB :=
  let sp := specialPerm donor moderator roles
  match db.users.find? (fun u => u.discord_id == some uid) with
  | none => (.notVerified, db)
  | some dbUser =>
    if dbUser.available_invite ≤ 0 ∧ sp = false then (.noInvitesLeft, db)
    else
      let db1 := { db with invites := db.invites ++ [⟨dbUser.id, now, none, genCode digest⟩] }
      match latestInvite db1.invites dbUser.id with
      | none => (.crash, db1)
      | some row =>
        let db2 :=
          if sp then db1
          else { db1 with
                   users := db1.users.map (fun v =>
                     if v.id == dbUser.id
                     then { v with available_invite := v.available_invite - 1 }
                     else v) }
        -- session synchronization: after the UPDATE, db_user.available_invite
        -- already holds old - 1; the reply then formats available_invite - 1
        (.issued row.invite_code
           (if sp then none else some (dbUser.available_invite - 1 - 1)), db2)

/-- The invite counter of the account with id `accId`, as stored in `db`. -/
def counterOf (db : DB) (accId : Nat) : Option Int :=
  (db.users.find? (fun v => v.id == accId)).map (·.available_invite)

/-- Outcome of the `register` command. -/
inductive RegisterOutcome where
  | invalidInviteCode
  | inviteAlreadyUsed
  | alreadyRegistered
  | nameTaken
  | submissionFailed
  | submissionRejected (body : String)
  | succeeded
deriving DecidableEq, Repr

/-- The form data of the `requests.post(f"{config.api_url}/users", data=...)`
call in the `register` command, as (field name, field value) pairs in source
order.  The integer `0` form-encodes as the string "0". -/
def registerForm (username password email inviteCode : String) : List (String × String) :=
  [("user[username]", username),
   ("user[password]", password),
   ("user[user_email]", email),
   ("user[invite_code]", inviteCode),
   ("check", "0")]

/-- The submitting step of `register` (src/main.py lines 359-373): POST the
form to the external account-creation API and classify the
`(status_code, body)` response: status ≠ 200 → generic retry-later failure;
status 200 with body ≠ "ok" → the body text is relayed verbatim; status 200
with body "ok" → success. -/
def submit (api : List (String × String) → Nat × String)
    (username password email inviteCode : String) : RegisterOutcome :=
  let r := api (registerForm username password email inviteCode)
  if r.1 ≠ 200 then .submissionFailed
  else if r.2 ≠ "ok" then .submissionRejected r.2
  else .succeeded

/-- Lower-casing of a name for the case-insensitive comparison
`func.lower(Users.name) == username.content.lower()`: character-wise
`Char.toLower` over the string's characters (two strings are equal iff their
character lists are, so comparing the lowered lists is comparing the lowered
strings). -/
def lowerStr (s : String) : List Char :=
  s.data.map Char.toLower

/-- The `register` command (src/main.py lines 311-373).  Look the entered
invite code up (`invalidInviteCode` when absent, `inviteAlreadyUsed` when its
`used_by` is set); fail `alreadyRegistered` when an account is already linked
to the requester's Discord id; fail `nameTaken` when the entered username
collides case-insensitively with an existing account name
(`func.lower(Users.name) == username.content.lower()`); otherwise run the
submitting step.  The command itself never writes to the store — in
particular it never sets `used_by` on the redeemed invite row. -/
def register (db : DB) (uid : Nat) (inviteCode username password email : String)
    (api : List (String × String) → Nat × String) : RegisterOutcome × DB :=
  match db.invites.find? (fun r => r.invite_code == inviteCode) with
  | none => (.invalidInviteCode, db)
  | some dbInvite =>
    if dbInvite.used_by.isSome then (.inviteAlreadyUsed, db)
    else if (db.users.find? (fun u => u.discord_id == some uid)).isSome then
      (.alreadyRegistered, db)
    else if (db.users.find? (fun u => lowerStr u.name == lowerStr username)).isSome then
      (.nameTaken, db)
    else (submit api username password email inviteCode, db)

/-- Membership in the character class `[\w \[\]-]` of the rename pattern.
Python's `\w` is `[a-zA-Z0-9_]` plus further Unicode word characters; the
model covers its ASCII fragment (the spec's "letters, digits, underscore"),
plus the literal space, brackets and hyphen of the class. -/
def wordClassChar (c : Char) : Bool :=
  c.isAlphanum || c == '_' || c == ' ' || c == '[' || c == ']' || c == '-'

/-- Semantics of `re.compile(r"^[\w \[\]-]{2,15}$").match(username)` being
truthy.  Python's `$` (without `re.MULTILINE`) matches at the end of the
string or just before one newline at the end of the string, so the match
succeeds exactly when the string, after discarding one trailing newline if
present, consists of 2 to 15 characters of the class. -/
def pyMatchName (s : String) : Bool :=
  let cs := s.data
  let core := if cs.getLast? == some '\n' then cs.dropLast else cs
  2 ≤ core.length && core.length ≤ 15 && core.all wordClassChar

/-- The nested validator `check(username)` of the `rename` command
(src/main.py lines 383-391): the pattern must match, and a candidate
containing both an underscore and a space is rejected. -/
def check (username : String) : Bool :=
  if !pyMatchName username then false
  else if username.data.contains '_' && username.data.contains ' ' then false
  else true

/-- Outcome of the `rename` command.  `waiting` models `client.wait_for`
suspending forever because no message from the requester ever passes
`check`. -/
inductive RenameOutcome where
  | notVerified
  | nameTaken
  | renamed (newName : String)
  | waiting
deriving DecidableEq, Repr

/-- The `rename` command (src/main.py lines 376-424).  `msgs` is the stream of
message texts the requester sends after the prompt; `wait_for` hands the flow
the first one passing `check` (earlier ones never reach any database access).
Fail `notVerified` when no account is linked to the Discord id; fail
`nameTaken` when an account with exactly the candidate name exists
(case-sensitive match); otherwise update only the `name` column of the
requester's account row (`values(name=new_username)`). -/
def rename (db : DB) (uid : Nat) (msgs : List String) : RenameOutcome × DB :=
  match db.users.find? (fun u => u.discord_id == some uid) with
  | none => (.notVerified, db)
  | some dbUser =>
    match msgs.find? check with
    | none => (.waiting, db)
    | some newUsername =>
      if (db.users.find? (fun v => v.name == newUsername)).isSome then (.nameTaken, db)
      else
        (.renamed newUsername,
         { db with
             users := db.users.map (fun v =>
               if v.id == dbUser.id then { v with name := newUsername } else v) })

/-- Sample account row: a verified owner with one invite left. -/
def sampleOwner : Users :=
  ⟨1, "Owner", "owner", "owner@example.com", 1, "hash", 1, some 10⟩

/-- Sample account row: a verified account with no invites left. -/
def sampleBroke : Users :=
  ⟨2, "Broke", "broke", "broke@example.com", 1, "hash2", 0, some 11⟩

/-- Sample store holding just `sampleOwner`. -/
def sampleDB : DB := ⟨[sampleOwner], [], []⟩

/-- Sample store holding just `sampleBroke`. -/
def sampleDB2 : DB := ⟨[sampleBroke], [], []⟩

/-- Sample store with an invite row that already has a redeemer. -/
def sampleUsedDB : DB := ⟨[sampleOwner], [], [⟨1, 5, some 2, "0123456789abcdef"⟩]⟩

/-- Sample 32-character md5 hex digest. -/
def sampleDigest : String := "0123456789abcdef0123456789abcdef"

theorem latestInviteAux_some_isSome (xs : List DiscordInvite) :
    ∀ a : DiscordInvite, (latestInviteAux (some a) xs).isSome = true := by
  induction xs with
  | nil => intro a; rfl
  | cons x xs ih => intro a; exact ih _

theorem latestInvite_append_isSome (invs : List DiscordInvite) (row : DiscordInvite) :
    ∃ r, latestInvite (invs ++ [row]) row.user_id = some r := by
  have hfilter : (invs ++ [row]).filter (fun r => r.user_id == row.user_id)
      = invs.filter (fun r => r.user_id == row.user_id) ++ [row] := by
    simp [List.filter_append]
  rw [latestInvite, hfilter]
  rcases hys : invs.filter (fun r => r.user_id == row.user_id) with _ | ⟨y, ys⟩
  · rw [hys]
    exact ⟨row, rfl⟩
  · rw [hys]
    have := latestInviteAux_some_isSome (ys ++ [row]) y
    rw [Option.isSome_iff_exists] at this
    exact this

theorem latestInviteAux_fresh (row : DiscordInvite) (xs : List DiscordInvite) :
    ∀ acc : Option DiscordInvite,
      (∀ x ∈ xs, x.time < row.time) → (∀ a, acc = some a → a.time < row.time) →
      latestInviteAux acc (xs ++ [row]) = some row := by
  induction xs with
  | nil =>
    intro acc _ hacc
    cases acc with
    | none => rfl
    | some a =>
      show latestInviteAux (some (if a.time < row.time then row else a)) [] = some row
      rw [if_pos (hacc a rfl)]
      rfl
  | cons x xs ih =>
    intro acc hxs hacc
    cases acc with
    | none =>
      show latestInviteAux (some x) (xs ++ [row]) = some row
      exact ih (some x) (fun y hy => hxs y (List.mem_cons_of_mem _ hy))
        (fun a ha => by cases ha; exact hxs x (List.mem_cons_self _ _))
    | some a =>
      show latestInviteAux (some (if a.time < x.time then x else a)) (xs ++ [row]) = some row
      refine ih _ (fun y hy => hxs y (List.mem_cons_of_mem _ hy)) (fun b hb => ?_)
      cases hb
      split
      · exact hxs x (List.mem_cons_self _ _)
      · exact hacc a rfl

theorem latestInvite_fresh (invs : List DiscordInvite) (row : DiscordInvite)
    (h : ∀ r ∈ invs, r.user_id = row.user_id → r.time < row.time) :
    latestInvite (invs ++ [row]) row.user_id = some row := by
  have hfilter : (invs ++ [row]).filter (fun r => r.user_id == row.user_id)
      = invs.filter (fun r => r.user_id == row.user_id) ++ [row] := by
    simp [List.filter_append]
  rw [latestInvite, hfilter]
  refine latestInviteAux_fresh row _ none (fun x hx => ?_) (fun a ha => by cases ha)
  exact h x (List.mem_of_mem_filter hx) (by simpa using List.of_mem_filter hx)

/-- C8: the permission classifier is a pure function of the requester's roles,
returning true exactly when some held role's id equals the configured donor
or moderator role id, or some held role has premium-booster status. -/
theorem specialPerm_iff (donor moderator : Nat) (roles : List Role) :
    specialPerm donor moderator roles = true ↔
      ∃ r ∈ roles, r.id = donor ∨ r.id = moderator ∨ r.is_premium_subscriber = true := by
  induction roles with
  | nil => simp [specialPerm]
  | cons r rs ih =>
    by_cases h1 : r.id = donor ∨ r.id = moderator
    · simp only [specialPerm, if_pos h1]
      constructor
      · intro _
        exact ⟨r, List.mem_cons_self _ _, h1.elim (fun h => Or.inl h) (fun h => Or.inr (Or.inl h))⟩
      · intro _; trivial
    · by_cases h2 : r.is_premium_subscriber
      · simp only [specialPerm, if_neg h1, if_pos h2]
        constructor
        · intro _
          exact ⟨r, List.mem_cons_self _ _, Or.inr (Or.inr h2)⟩
        · intro _; trivial
      · simp only [specialPerm, if_neg h1, if_neg h2]
        rw [ih]
        constructor
        · rintro ⟨x, hx, hprop⟩
          exact ⟨x, List.mem_cons_of_mem _ hx, hprop⟩
        · rintro ⟨x, hx, hprop⟩
          rcases List.mem_cons.mp hx with rfl | hx'
          · rcases hprop with h | h | h
            · exact absurd (Or.inl h) h1
            · exact absurd (Or.inr h) h1
            · exact absurd h h2
          · exact ⟨x, hx', hprop⟩

/-- C3: for a verified requester whose remaining-invite counter is
non-positive and who is not classified unlimited, invitation issuance fails
with the no-invites-left reply and the store is returned unchanged — no
invite row is created and the counter is untouched. -/
theorem invite_noInvitesLeft (db : DB) (uid donor moderator : Nat)
    (roles : List Role) (digest : String) (now : Nat) (dbUser : Users)
    (hu : db.users.find? (fun u => u.discord_id == some uid) = some dbUser)
    (hc : dbUser.available_invite ≤ 0)
    (hs : specialPerm donor moderator roles = false) :
    invite db uid donor moderator roles digest now = (.noInvitesLeft, db) := by
  simp only [invite, hu]
  rw [if_pos ⟨hc, hs⟩]

/-- C3 witness: the sample account with counter 0 and no special roles gets
the no-invites-left failure with the store unchanged. -/
theorem invite_noInvitesLeft_witness :
    invite sampleDB2 11 100 200 [] sampleDigest 5 = (.noInvitesLeft, sampleDB2) :=
  invite_noInvitesLeft sampleDB2 11 100 200 [] sampleDigest 5 sampleBroke
    (by decide) (by decide) (by decide)

theorem genCode_length (d : String) (hd : d.length = 32) : (genCode d).length = 16 := by
  have hdata : d.data.length = 32 := hd
  show (d.data.take 16).length = 16
  rw [List.length_take, hdata]
  decide

theorem verify_fresh_eq (db : DB) (uid : Nat) (d : String)
    (hacct : db.users.find? (fun u => u.discord_id == some uid) = none)
    (hpend : db.verifies.find? (fun v => v.discord_id == uid) = none) :
    verify db uid d
      = (.issued (genCode d), { db with verifies := db.verifies ++ [⟨uid, genCode d⟩] }) := by
  rw [verify, hacct]
  have hdup : ((db.verifies.find? (fun v => v.discord_id == uid)).isSome) = false := by
    rw [hpend]; rfl
  simp only [hdup, Bool.false_eq_true, if_false]
  have hsel : (db.verifies ++ [(⟨uid, genCode d⟩ : DiscordVerify)]).find?
      (fun v => v.discord_id == uid) = some ⟨uid, genCode d⟩ := by
    rw [List.find?_append, hpend]
    simp [List.find?]
  simp only [hsel]

theorem verify_pending_eq (db : DB) (uid : Nat) (d : String) (row : DiscordVerify)
    (hacct : db.users.find? (fun u => u.discord_id == some uid) = none)
    (hpend : db.verifies.find? (fun v => v.discord_id == uid) = some row) :
    verify db uid d = (.codeAlreadyPending row.verify_key, db) := by
  rw [verify, hacct]
  simp [hpend]

/-- C1: for a requester with no linked account and no pending code, the first
verification issuance inserts exactly one code row and returns its
16-character code; an immediately repeated issuance hits the duplicate-key
condition, aborts its write (the store is unchanged), and returns the very
code stored by the first issuance, so the requester never has two rows. -/
theorem verify_idempotent (db : DB) (uid : Nat) (d1 d2 : String)
    (hacct : db.users.find? (fun u => u.discord_id == some uid) = none)
    (hpend : db.verifies.find? (fun v => v.discord_id == uid) = none)
    (hd1 : d1.length = 32) :
    (verify db uid d1).1 = .issued (genCode d1) ∧
    (genCode d1).length = 16 ∧
    ((verify db uid d1).2.verifies.filter (fun v => v.discord_id == uid)).length = 1 ∧
    (verify (verify db uid d1).2 uid d2).1 = .codeAlreadyPending (genCode d1) ∧
    (verify (verify db uid d1).2 uid d2).2 = (verify db uid d1).2 := by
  have h1 := verify_fresh_eq db uid d1 hacct hpend
  have hfilter : (db.verifies.filter (fun v => v.discord_id == uid)) = [] := by
    rw [List.filter_eq_nil_iff]
    intro x hx
    exact (List.find?_eq_none.mp hpend) x hx
  have hsel : (db.verifies ++ [(⟨uid, genCode d1⟩ : DiscordVerify)]).find?
      (fun v => v.discord_id == uid) = some ⟨uid, genCode d1⟩ := by
    rw [List.find?_append, hpend]
    simp [List.find?]
  have h2 := verify_pending_eq (verify db uid d1).2 uid d2 ⟨uid, genCode d1⟩
    (by rw [h1]; exact hacct) (by rw [h1]; exact hsel)
  refine ⟨by rw [h1], genCode_length d1 hd1, ?_, by rw [h2], by rw [h2]⟩
  rw [h1]
  simp [List.filter_append, hfilter]

/-- C1 witness: the sample store has no account and no pending code for
Discord id 7; issuing twice returns the same code both ways. -/
theorem verify_idempotent_witness :
    (verify sampleDB 7 sampleDigest).1 = .issued (genCode sampleDigest) ∧
    (verify (verify sampleDB 7 sampleDigest).2 7 "ffff6789abcdef0123456789abcdef00").1
      = .codeAlreadyPending (genCode sampleDigest) :=
  ⟨(verify_idempotent sampleDB 7 sampleDigest "ffff6789abcdef0123456789abcdef00"
      (by decide) (by decide) (by decide)).1,
   (verify_idempotent sampleDB 7 sampleDigest "ffff6789abcdef0123456789abcdef00"
      (by decide) (by decide) (by decide)).2.2.2.1⟩

theorem invite_issues_eq (db : DB) (uid donor moderator : Nat) (roles : List Role)
    (digest : String) (now : Nat) (dbUser : Users) (r : DiscordInvite)
    (hu : db.users.find? (fun u => u.discord_id == some uid) = some dbUser)
    (hguard : ¬(dbUser.available_invite ≤ 0 ∧ specialPerm donor moderator roles = false))
    (hr : latestInvite (db.invites ++ [⟨dbUser.id, now, none, genCode digest⟩]) dbUser.id
            = some r) :
    invite db uid donor moderator roles digest now
      = (.issued r.invite_code
           (if specialPerm donor moderator roles then none
            else some (dbUser.available_invite - 1 - 1)),
         if specialPerm donor moderator roles
         then { db with invites := db.invites ++ [⟨dbUser.id, now, none, genCode digest⟩] }
         else { db with
                  invites := db.invites ++ [⟨dbUser.id, now, none, genCode digest⟩],
                  users := db.users.map (fun v =>
                    if v.id == dbUser.id
                    then { v with available_invite := v.available_invite - 1 }
                    else v) }) := by
  simp only [invite, hu]
  rw [if_neg hguard]
  simp only [hr]

/-- C4: a verified requester with a positive counter always gets an invite
issued; without the unlimited classification the account's stored counter is
decremented by exactly one and stays non-negative, and with the unlimited
classification the user rows (so in particular the counter) are unchanged. -/
theorem invite_decrements (db : DB) (uid donor moderator : Nat) (roles : List Role)
    (digest : String) (now : Nat) (dbUser : Users)
    (hu : db.users.find? (fun u => u.discord_id == some uid) = some dbUser)
    (hid : db.users.find? (fun v => v.id == dbUser.id) = some dbUser)
    (hpos : 0 < dbUser.available_invite) :
    (∃ c rem, (invite db uid donor moderator roles digest now).1 = .issued c rem) ∧
    (specialPerm donor moderator roles = false →
       counterOf (invite db uid donor moderator roles digest now).2 dbUser.id
         = some (dbUser.available_invite - 1) ∧
       0 ≤ dbUser.available_invite - 1) ∧
    (specialPerm donor moderator roles = true →
       (invite db uid donor moderator roles digest now).2.users = db.users) := by
  have hne : ¬(dbUser.available_invite ≤ 0 ∧ specialPerm donor moderator roles = false) :=
    fun h => absurd hpos (not_lt.mpr h.1)
  obtain ⟨r, hr0⟩ := latestInvite_append_isSome db.invites ⟨dbUser.id, now, none, genCode digest⟩
  have hr : latestInvite (db.invites ++ [⟨dbUser.id, now, none, genCode digest⟩]) dbUser.id
      = some r := hr0
  have heq := invite_issues_eq db uid donor moderator roles digest now dbUser r hu hne hr
  refine ⟨⟨r.invite_code,
           if specialPerm donor moderator roles then none
           else some (dbUser.available_invite - 1 - 1), by rw [heq]⟩, ?_, ?_⟩
  · intro hsp
    constructor
    · rw [heq]
      simp only [hsp, Bool.false_eq_true, if_false]
      rw [counterOf]
      have hpf : ((fun v : Users => v.id == dbUser.id) ∘ (fun v : Users =>
          if v.id == dbUser.id
          then { v with available_invite := v.available_invite - 1 }
          else v)) = fun v : Users => v.id == dbUser.id := by
        funext v
        by_cases hv : (v.id == dbUser.id) = true
        · simp [Function.comp, hv]
        · simp [Function.comp, hv]
      simp only [List.find?_map, hpf, hid, Option.map_some]
      simp
    · omega
  · intro hsp
    rw [heq]
    simp [hsp]

/-- C4 witness: the sample owner (counter 1, no roles, so not unlimited) gets
an invite issued and the stored counter drops to 0. -/
theorem invite_decrements_witness :
    (∃ c rem, (invite sampleDB 10 100 200 [] sampleDigest 5).1
       = InviteOutcome.issued c rem) ∧
    counterOf (invite sampleDB 10 100 200 [] sampleDigest 5).2 1 = some 0 :=
  ⟨(invite_decrements sampleDB 10 100 200 [] sampleDigest 5 sampleOwner
      (by decide) (by decide) (by decide)).1,
   ((invite_decrements sampleDB 10 100 200 [] sampleDigest 5 sampleOwner
      (by decide) (by decide) (by decide)).2.1 rfl).1⟩

/-- C5: evaluation of the `invite` command at the claim's failing input — the
verified sample owner at counter 1, without special roles, fresh issuance.
The requester does receive exactly the freshly inserted code and the stored
counter correctly drops to 0, but the reply reports -1 invites left: the ORM
session synchronization has already set the in-session counter to 0 when the
message formats `available_invite - 1`, one less than the post-decrement
count the claim states (0). -/
theorem invite_reported_count_bug :
    (invite sampleDB 10 100 200 [] sampleDigest 5).1
      = .issued (genCode sampleDigest) (some (-1)) ∧
    counterOf (invite sampleDB 10 100 200 [] sampleDigest 5).2 1 = some 0 := by
  exact ⟨by decide, by decide⟩

theorem register_preserves_db (db : DB) (uid : Nat) (ic un pw em : String)
    (api : List (String × String) → Nat × String) :
    (register db uid ic un pw em api).2 = db := by
  simp only [register]
  split
  · rfl
  · split
    · rfl
    · split
      · rfl
      · split
        · rfl
        · rfl

/-- C2 counterexample: in a store whose only invite row is the one freshly
issued to the sample owner, a first registration with that code succeeds, yet
a second registration presenting the same code afterwards does not fail with
the invite-already-used reply (it succeeds as well): the flow never sets the
redeemer field, so the claim that every later attempt fails is false. -/
theorem invite_code_reuse_cex :
    (register (invite sampleDB 10 100 200 [] sampleDigest 5).2 20
        (genCode sampleDigest) "alice" "pw" "alice@example.com"
        (fun _ => (200, "ok"))).1 = .succeeded ∧
    (register
        (register (invite sampleDB 10 100 200 [] sampleDigest 5).2 20
           (genCode sampleDigest) "alice" "pw" "alice@example.com"
           (fun _ => (200, "ok"))).2 30
        (genCode sampleDigest) "bob" "pw" "bob@example.com"
        (fun _ => (200, "ok"))).1 ≠ .inviteAlreadyUsed := by
  exact ⟨by decide, by decide⟩

/-- C2 (amended): the redemption check of the registration flow rejects with
the invite-already-used reply exactly those codes whose stored redeemer field
is set; and since registration itself never writes to the store (in
particular never sets the redeemer), a code produced by issuance — whose
redeemer is unset — passes the redemption check on the first and on every
later registration attempt alike. -/
theorem register_redemption_check (db : DB) (uid : Nat) (ic un pw em : String)
    (api : List (String × String) → Nat × String) (dbInvite : DiscordInvite)
    (hfind : db.invites.find? (fun r => r.invite_code == ic) = some dbInvite) :
    (dbInvite.used_by.isSome = true →
       register db uid ic un pw em api = (.inviteAlreadyUsed, db)) ∧
    (dbInvite.used_by = none →
       (register db uid ic un pw em api).1 ≠ .inviteAlreadyUsed) ∧
    (register db uid ic un pw em api).2 = db := by
  have hsubmit : submit api un pw em ic ≠ .inviteAlreadyUsed := by
    simp only [submit]
    split
    · exact fun h => nomatch h
    · split
      · exact fun h => nomatch h
      · exact fun h => nomatch h
  refine ⟨fun hused => ?_, fun hnone => ?_, ?_⟩
  · simp only [register, hfind, hused, if_true]
  · simp only [register, hfind, hnone, Option.isSome_none, Bool.false_eq_true, if_false]
    split
    · intro h; cases h
    · split
      · intro h; cases h
      · exact hsubmit
  · exact register_preserves_db db uid ic un pw em api

/-- C2 witness: the redemption check at work on both sides — a store whose
invite row has a redeemer rejects with the invite-already-used reply, and the
sample issued (unredeemed) invite is not rejected. -/
theorem register_redemption_check_witness :
    register sampleUsedDB 20 "0123456789abcdef" "alice" "pw" "alice@example.com"
        (fun _ => (200, "ok")) = (.inviteAlreadyUsed, sampleUsedDB) ∧
    (register (invite sampleDB 10 100 200 [] sampleDigest 5).2 20
        (genCode sampleDigest) "alice" "pw" "alice@example.com"
        (fun _ => (200, "ok"))).1 ≠ .inviteAlreadyUsed :=
  ⟨(register_redemption_check sampleUsedDB 20 "0123456789abcdef" "alice" "pw"
      "alice@example.com" (fun _ => (200, "ok")) ⟨1, 5, some 2, "0123456789abcdef"⟩
      (by decide)).1 rfl,
   (register_redemption_check (invite sampleDB 10 100 200 [] sampleDigest 5).2 20
      (genCode sampleDigest) "alice" "pw" "alice@example.com" (fun _ => (200, "ok"))
      ⟨1, 5, none, genCode sampleDigest⟩ (by decide)).2.1 rfl⟩

/-- C6 counterexample: the form field names of the POST to the external
account-creation API are the nested `user[...]` names, not the bare
`username`, `password`, `user_email`, `invite_code` names the claim states
(shown here on a concrete form). -/
theorem registerForm_fields_cex :
    (registerForm "u" "p" "e" "i").map Prod.fst
      = ["user[username]", "user[password]", "user[user_email]", "user[invite_code]",
         "check"] ∧
    (registerForm "u" "p" "e" "i").map Prod.fst
      ≠ ["username", "password", "user_email", "invite_code", "check"] := by
  exact ⟨rfl, by decide⟩

/-- C6 (amended): the submitting step sends the registration form with fields
`user[username]`, `user[password]`, `user[user_email]`, `user[invite_code]`
carrying the collected values and `check` carrying "0", and classifies the
response: a status other than 200 gives the generic retry-later failure; a
200 status with body other than "ok" relays the body text verbatim; a 200
status with body "ok" ends the session successfully. -/
theorem submit_classification (un pw em ic : String)
    (api : List (String × String) → Nat × String) (st : Nat) (bd : String)
    (hapi : api (registerForm un pw em ic) = (st, bd)) :
    ((registerForm un pw em ic).map Prod.fst
       = ["user[username]", "user[password]", "user[user_email]", "user[invite_code]",
          "check"]) ∧
    ((registerForm un pw em ic).map Prod.snd = [un, pw, em, ic, "0"]) ∧
    (st ≠ 200 → submit api un pw em ic = .submissionFailed) ∧
    (st = 200 → bd ≠ "ok" → submit api un pw em ic = .submissionRejected bd) ∧
    (st = 200 → bd = "ok" → submit api un pw em ic = .succeeded) := by
  refine ⟨rfl, rfl, fun hst => ?_, fun hst hbd => ?_, fun hst hbd => ?_⟩
  · simp only [submit, hapi]
    rw [if_pos hst]
  · simp only [submit, hapi]
    rw [if_neg (fun h => h hst), if_pos hbd]
  · simp only [submit, hapi]
    rw [if_neg (fun h => h hst), if_neg (fun h => h hbd)]

/-- C6 witness: a 200/"ok" response from the external API ends the session
successfully, on the concrete sample form. -/
theorem submit_classification_witness :
    submit (fun _ => (200, "ok")) "alice" "pw" "alice@example.com" "0123456789abcdef"
      = .succeeded :=
  (submit_classification "alice" "pw" "alice@example.com" "0123456789abcdef"
     (fun _ => (200, "ok")) 200 "ok" rfl).2.2.2.2 rfl rfl

/-- C7: registration never creates an account row itself; past a valid unused
invite code, a requester already linked to an account fails with the
already-registered reply, and a candidate name colliding case-insensitively
with an existing account's name fails with the name-taken reply (store
unchanged in both cases); and whenever some stored account's name equals the
candidate under lower-casing, the attempt cannot succeed — so of two
attempts with case-different spellings of one name, run in either order, at
most the one finding no stored case-variant can succeed. -/
theorem register_username_checks (db : DB) (uid : Nat) (ic un pw em : String)
    (api : List (String × String) → Nat × String) :
    ((register db uid ic un pw em api).2.users = db.users) ∧
    (∀ dbInvite : DiscordInvite,
       db.invites.find? (fun r => r.invite_code == ic) = some dbInvite →
       dbInvite.used_by = none →
       (((db.users.find? (fun u => u.discord_id == some uid)).isSome = true →
           register db uid ic un pw em api = (.alreadyRegistered, db)) ∧
        (db.users.find? (fun u => u.discord_id == some uid) = none →
         (db.users.find? (fun u => lowerStr u.name == lowerStr un)).isSome = true →
           register db uid ic un pw em api = (.nameTaken, db)))) ∧
    ((∃ u ∈ db.users, lowerStr u.name = lowerStr un) →
       (register db uid ic un pw em api).1 ≠ .succeeded) := by
  refine ⟨by rw [register_preserves_db], fun dbInvite hfind hnone => ⟨?_, ?_⟩, ?_⟩
  · intro hlinked
    simp only [register, hfind, hnone, Option.isSome_none, Bool.false_eq_true, if_false,
      hlinked, if_true]
  · intro hnolink hname
    simp only [register, hfind, hnone, hnolink, hname, Option.isSome_none,
      Bool.false_eq_true, if_false, if_true]
  · rintro ⟨u, hu, hlow⟩
    have hfindName : (db.users.find? (fun v => lowerStr v.name == lowerStr un)).isSome
        = true := by
      rw [List.find?_isSome]
      exact ⟨u, hu, by rw [hlow]; exact beq_self_eq_true _⟩
    simp only [register]
    split
    · exact fun h => nomatch h
    · split
      · exact fun h => nomatch h
      · split
        · exact fun h => nomatch h
        · exact fun h => nomatch h

/-- C7 witness: on the store holding the freshly issued sample invite, the
already-linked requester fails with already-registered, and a fresh requester
offering the case-variant spelling "oWnEr" of the stored name "Owner" fails
with name-taken. -/
theorem register_username_checks_witness :
    register (invite sampleDB 10 100 200 [] sampleDigest 5).2 10 (genCode sampleDigest)
        "x" "pw" "x@example.com" (fun _ => (200, "ok"))
      = (.alreadyRegistered, (invite sampleDB 10 100 200 [] sampleDigest 5).2) ∧
    register (invite sampleDB 10 100 200 [] sampleDigest 5).2 20 (genCode sampleDigest)
        "oWnEr" "pw" "x@example.com" (fun _ => (200, "ok"))
      = (.nameTaken, (invite sampleDB 10 100 200 [] sampleDigest 5).2) :=
  ⟨((register_username_checks (invite sampleDB 10 100 200 [] sampleDigest 5).2 10
       (genCode sampleDigest) "x" "pw" "x@example.com" (fun _ => (200, "ok"))).2.1
      ⟨1, 5, none, genCode sampleDigest⟩ (by decide) rfl).1 (by decide),
   ((register_username_checks (invite sampleDB 10 100 200 [] sampleDigest 5).2 20
       (genCode sampleDigest) "oWnEr" "pw" "x@example.com" (fun _ => (200, "ok"))).2.1
      ⟨1, 5, none, genCode sampleDigest⟩ (by decide) rfl).2 (by decide) (by decide)⟩

theorem pyMatchName_iff (s : String) :
    pyMatchName s = true ↔
      ∃ core : List Char, (s.data = core ∨ s.data = core ++ ['\n']) ∧
        2 ≤ core.length ∧ core.length ≤ 15 ∧ ∀ c ∈ core, wordClassChar c = true := by
  have hnl : wordClassChar '\n' = false := by decide
  by_cases hl : s.data.getLast? = some '\n'
  · obtain ⟨ys, hys⟩ := List.getLast?_eq_some_iff.mp hl
    have hcond : (s.data.getLast? == some '\n') = true := by
      rw [hl]; exact beq_self_eq_true _
    have hdl : s.data.dropLast = ys := by
      rw [hys]; exact List.dropLast_concat
    constructor
    · intro hpm
      simp only [pyMatchName, hcond, if_true, hdl, Bool.and_eq_true, decide_eq_true_eq,
        List.all_eq_true] at hpm
      exact ⟨ys, Or.inr hys, hpm.1.1, hpm.1.2, hpm.2⟩
    · rintro ⟨core, hshape, h2, h15, hall⟩
      have hcore : core = ys := by
        rcases hshape with hs | hs
        · exfalso
          have hmem : '\n' ∈ core := by
            rw [← hs, hys]
            exact List.mem_append_right _ (by simp)
          exact absurd (hall '\n' hmem) (by rw [hnl]; exact Bool.false_ne_true)
        · have hcat : core ++ ['\n'] = ys ++ ['\n'] := hs.symm.trans hys
          have := congrArg List.dropLast hcat
          simpa [List.dropLast_concat] using this
      subst hcore
      simp only [pyMatchName, hcond, if_true, hdl, Bool.and_eq_true, decide_eq_true_eq,
        List.all_eq_true]
      exact ⟨⟨h2, h15⟩, hall⟩
  · have hcond : (s.data.getLast? == some '\n') = false := by
      rw [beq_eq_false_iff_ne]
      exact hl
    constructor
    · intro hpm
      simp only [pyMatchName, hcond, Bool.false_eq_true, if_false, Bool.and_eq_true,
        decide_eq_true_eq, List.all_eq_true] at hpm
      exact ⟨s.data, Or.inl rfl, hpm.1.1, hpm.1.2, hpm.2⟩
    · rintro ⟨core, hshape, h2, h15, hall⟩
      have hcore : s.data = core := by
        rcases hshape with hs | hs
        · exact hs
        · exact absurd (by rw [hs]; exact List.getLast?_concat _) hl
      simp only [pyMatchName, hcond, Bool.false_eq_true, if_false, Bool.and_eq_true,
        decide_eq_true_eq, List.all_eq_true]
      exact ⟨⟨by rw [hcore]; exact h2, by rw [hcore]; exact h15⟩,
             by rw [hcore]; exact hall⟩

theorem check_eq_true_iff (s : String) :
    check s = true ↔ (pyMatchName s = true ∧ ¬('_' ∈ s.data ∧ ' ' ∈ s.data)) := by
  by_cases hpm : pyMatchName s = true
  · by_cases h1 : '_' ∈ s.data
    · by_cases h2 : ' ' ∈ s.data
      · simp [check, hpm, h1, h2, List.contains]
      · simp [check, hpm, h1, h2, List.contains]
    · simp [check, hpm, h1, List.contains]
  · rw [Bool.not_eq_true] at hpm
    simp [check, hpm]

/-- C9 counterexample: the candidate "ab\n" is accepted by the rename
validator although its third character, the newline, is outside the allowed
letters/digits/space/bracket/hyphen/underscore class — refuting that exactly
the 2-to-15-character strings over that class are accepted (Python's `$`
also matches just before a trailing newline). -/
theorem check_trailing_newline_cex :
    check "ab\n" = true ∧ '\n' ∈ "ab\n".data ∧ wordClassChar '\n' = false := by
  exact ⟨by decide, by decide, by decide⟩

/-- C9 (amended): the rename validator accepts exactly the strings that,
after discarding one optional trailing newline (which Python's `$` lets
through), consist of 2 to 15 characters of the
letters/digits/space/bracket/hyphen/underscore class and do not contain both
a space and an underscore; and a candidate failing the validator is skipped
by the message wait entirely, before any storage access for it. -/
theorem check_accepts_iff :
    (∀ s : String, check s = true ↔
       ∃ core : List Char,
         (s.data = core ∨ s.data = core ++ ['\n']) ∧
         2 ≤ core.length ∧ core.length ≤ 15 ∧
         (∀ c ∈ core, wordClassChar c = true) ∧
         ¬('_' ∈ s.data ∧ ' ' ∈ s.data)) ∧
    (∀ (db : DB) (uid : Nat) (c : String) (rest : List String),
       check c = false → rename db uid (c :: rest) = rename db uid rest) := by
  constructor
  · intro s
    rw [check_eq_true_iff, pyMatchName_iff]
    constructor
    · rintro ⟨⟨core, hshape, h2, h15, hall⟩, hmix⟩
      exact ⟨core, hshape, h2, h15, hall, hmix⟩
    · rintro ⟨core, hshape, h2, h15, hall, hmix⟩
      exact ⟨⟨core, hshape, h2, h15, hall⟩, hmix⟩
  · intro db uid c rest hc
    have hskip : List.find? check (c :: rest) = List.find? check rest :=
      List.find?_cons_of_neg _ (by simp [hc])
    rcases h : db.users.find? (fun u => u.discord_id == some uid) with _ | dbUser
    · simp [rename, h]
    · simp [rename, h, hskip]

/-- C9 witness: "ab cd" (letters and a space, no underscore) is accepted, and
the mixing candidate "foo bar_baz" is skipped by the rename flow before any
storage access, the flow continuing with the rest of the message stream. -/
theorem check_accepts_iff_witness :
    check "ab cd" = true ∧
    rename sampleDB 10 ["foo bar_baz", "Newname"] = rename sampleDB 10 ["Newname"] :=
  ⟨(check_accepts_iff.1 "ab cd").mpr
     ⟨"ab cd".data, Or.inl rfl, by decide, by decide, by decide, by decide⟩,
   check_accepts_iff.2 sampleDB 10 "foo bar_baz" ["Newname"] (by decide)⟩

/-- C10: a successful rename updates only the display-name column of the
requester's own account row: the store's verification and invite tables are
untouched, and row-by-row every account keeps its id, normalized name
(safe_name), email, privilege flags, password hash, invite counter and
linked Discord id, with only the target row's display name becoming the new
name and every other row's name unchanged. -/
theorem rename_updates_only_name (db : DB) (uid : Nat) (msgs : List String)
    (dbUser : Users) (newName : String)
    (hu : db.users.find? (fun u => u.discord_id == some uid) = some dbUser)
    (hmsg : msgs.find? check = some newName)
    (hfree : db.users.find? (fun v => v.name == newName) = none) :
    (rename db uid msgs).1 = .renamed newName ∧
    (rename db uid msgs).2.verifies = db.verifies ∧
    (rename db uid msgs).2.invites = db.invites ∧
    List.Forall₂ (fun v v' : Users =>
        v'.id = v.id ∧ v'.safe_name = v.safe_name ∧ v'.email = v.email ∧
        v'.priv = v.priv ∧ v'.pw_bcrypt = v.pw_bcrypt ∧
        v'.available_invite = v.available_invite ∧ v'.discord_id = v.discord_id ∧
        (v.id = dbUser.id → v'.name = newName) ∧
        (v.id ≠ dbUser.id → v'.name = v.name))
      db.users (rename db uid msgs).2.users := by
  have heq : rename db uid msgs
      = (.renamed newName,
         { db with users := db.users.map (fun v =>
             if v.id == dbUser.id then { v with name := newName } else v) }) := by
    simp only [rename, hu, hmsg, hfree, Option.isSome_none, Bool.false_eq_true, if_false]
  refine ⟨by rw [heq], by rw [heq], by rw [heq], ?_⟩
  rw [heq]
  rw [show ((RenameOutcome.renamed newName,
      ({ db with users := db.users.map (fun v =>
          if v.id == dbUser.id then { v with name := newName } else v) } : DB)).2.users)
    = db.users.map (fun v =>
        if v.id == dbUser.id then { v with name := newName } else v) from rfl]
  rw [List.forall₂_map_right_iff, List.forall₂_same]
  intro v _
  by_cases hid : (v.id == dbUser.id) = true
  · have hideq : v.id = dbUser.id := by simpa using hid
    simp [hid, hideq]
  · have hidne : v.id ≠ dbUser.id := by simpa using hid
    simp [hid, hidne]

/-- C10 witness: renaming the sample owner to "New Name" succeeds and leaves
the invite table untouched. -/
theorem rename_updates_only_name_witness :
    (rename sampleDB 10 ["New Name"]).1 = .renamed "New Name" ∧
    (rename sampleDB 10 ["New Name"]).2.invites = sampleDB.invites :=
  ⟨(rename_updates_only_name sampleDB 10 ["New Name"] sampleOwner "New Name"
      (by decide) (by decide) (by decide)).1,
   (rename_updates_only_name sampleDB 10 ["New Name"] sampleOwner "New Name"
      (by decide) (by decide) (by decide)).2.2.1⟩

end OsuVNFC
